import Mathlib

/-!
# Verification of the OpenFGA TypeScript types generator

Shallow embedding of `openfga-types-gen`: the relation classifier, the
generated helper functions (`formatFGAObjectId`, `parseFGAObjectId`,
`createTupleKey`, `isValidRelationForObjectType`), the emitter's metadata
block, and the CLI configuration loader (`parseCliArgs`, `loadConfig`).

Strings manipulated by the generator core are modelled as explicit
character lists (`Str`) so that splitting and concatenation are
structurally recursive; CLI-level strings, which are only compared for
equality, stay as `String`.
-/

namespace FgaGen

/-- Strings as character lists, for the generator core. -/
abbrev Str := List Char

/-- Convert a Lean string literal to the `Str` representation. -/
def strLit (s : String) : Str := s.data

/-! ## Data model (spec §3)

Modelled from the spec: the `type-generator.ts` module (class
`TypeGenerator`) is not present in the repository snapshot; its data
model is taken from spec §3 ("RelationExpression — recursive tagged
variant over Direct / ComputedUserset / TupleToUserset / Union /
Intersection / Difference"). -/

/-- Modelled from the spec: a relation-definition expression tree
(spec §3 `RelationExpression`).  `direct` carries the allowed subject
references, `computedUserset` a relation on the same type,
`tupleToUserset` the (tupleset relation, remote relation) pair of an
"X from Y" traversal, and the set-algebra nodes carry their children. -/
inductive RelationExpression where
  | direct (subjects : List Str)
  | computedUserset (relation : Str)
  | tupleToUserset (tupleset : Str) (relation : Str)
  | union (children : List RelationExpression)
  | intersection (children : List RelationExpression)
  | difference (base : RelationExpression) (subtrahend : RelationExpression)

/-- Modelled from the spec: a `TypeDefinition` (spec §3) — a type name
with its relation-name ↦ expression mapping, in model order. -/
structure TypeDefinition where
  name : Str
  relations : List (Str × RelationExpression)

/-- Modelled from the spec: an `AuthorizationModel` (spec §3). -/
structure AuthorizationModel where
  id : Str
  schemaVersion : Str
  typeDefinitions : List TypeDefinition

/-! ## Relation classifier (spec §4.3) -/

/-- The four relation classifications (spec §3 `RelationClassification`). -/
inductive RelationClassification where
  | direct
  | computed
  | inherited
  | indirect
deriving DecidableEq, Repr

mutual
/-- Does the tree contain a `TupleToUserset` node anywhere? (spec §4.3
rule 1). -/
def containsTupleToUserset : RelationExpression → Bool
  | .direct _ => false
  | .computedUserset _ => false
  | .tupleToUserset _ _ => true
  | .union cs => containsTupleToUsersetList cs
  | .intersection cs => containsTupleToUsersetList cs
  | .difference b s => containsTupleToUserset b || containsTupleToUserset s

/-- List version of `containsTupleToUserset`. -/
def containsTupleToUsersetList : List RelationExpression → Bool
  | [] => false
  | c :: cs => containsTupleToUserset c || containsTupleToUsersetList cs
end

/-- Is the node a `Direct` leaf? -/
def isDirectNode : RelationExpression → Bool
  | .direct _ => true
  | _ => false

/-- Is the node a `ComputedUserset` leaf? -/
def isComputedNode : RelationExpression → Bool
  | .computedUserset _ => true
  | _ => false

/-- Children of a combining node (`union`/`intersection`/`difference`);
`none` on leaves.  A `difference` has exactly its base and subtrahend. -/
def comboChildren : RelationExpression → Option (List RelationExpression)
  | .union cs => some cs
  | .intersection cs => some cs
  | .difference b s => some [b, s]
  | _ => none

/-- spec §4.3 rule 2 pattern: a single `ComputedUserset` node, or a
combining node whose children are each `ComputedUserset` or `Direct`,
with at most one `Direct` child and at least one `ComputedUserset`. -/
def computedPattern (e : RelationExpression) : Bool :=
  match e with
  | .computedUserset _ => true
  | _ =>
    match comboChildren e with
    | some cs =>
        cs.all (fun c => isComputedNode c || isDirectNode c)
          && cs.countP isDirectNode ≤ 1
          && 1 ≤ cs.countP isComputedNode
    | none => false

/-- spec §4.3 rule 3 pattern: a combining node with two or more
non-`Direct` children, or an `Intersection`/`Difference` node. -/
def indirectPattern (e : RelationExpression) : Bool :=
  match comboChildren e with
  | some cs =>
      2 ≤ cs.countP (fun c => !isDirectNode c)
        || (match e with
            | .intersection _ => true
            | .difference _ _ => true
            | _ => false)
  | none => false

/-- spec §4.3 rule 4 pattern: exactly one `Direct` node, or a `Union`
composed solely of `Direct` nodes. -/
def directPattern : RelationExpression → Bool
  | .direct _ => true
  | .union cs => cs.all isDirectNode
  | _ => false

/-- Modelled from the spec: the relation classifier of the missing
`type-generator.ts`, from spec §4.3's precedence rules (inherited >
computed > indirect > direct), made total as spec §3 requires
("a derived, total function"): the residual tree shapes that match none
of §4.3's four patterns (e.g. a union mixing several `Direct` children
with one `ComputedUserset`) fall to `indirect`, following §4.3's own
rationale for that category (derived membership that is neither a pure
pass-through nor a pure grant). -/
def classifyRelation (e : RelationExpression) : RelationClassification :=
  if containsTupleToUserset e then .inherited
  else if computedPattern e then .computed
  else if indirectPattern e then .indirect
  else if directPattern e then .direct
  else .indirect

/-! ## The repository's example authorization model

The `.fga` model shipped with the repository (types `user`,
`organization`, `team`, `game`, `asset`, `project`), transcribed
definition by definition. -/

/-- Shorthand for a `ComputedUserset` leaf. -/
def cu (r : String) : RelationExpression := .computedUserset (strLit r)

/-- Shorthand for a `Direct` leaf. -/
def dir (ss : List String) : RelationExpression := .direct (ss.map strLit)

/-- Shorthand for a `TupleToUserset` leaf (`r from ts`). -/
def ttu (ts r : String) : RelationExpression :=
  .tupleToUserset (strLit ts) (strLit r)

/-- The expression of `can_view_team` on `team`:
`member or admin or member from parent_organization`. -/
def canViewTeamExpr : RelationExpression :=
  .union [cu "member", cu "admin", ttu "parent_organization" "member"]

/-- The `organization` type of the repository's example model. -/
def organizationType : TypeDefinition where
  name := strLit "organization"
  relations :=
    [ (strLit "owner", dir ["user"])
    , (strLit "admin", .union [dir ["user"], cu "owner"])
    , (strLit "member", .union [dir ["user"], cu "admin"])
    , (strLit "can_create_team", .union [cu "admin", cu "owner"])
    , (strLit "can_manage_games", .union [cu "admin", cu "owner"]) ]

/-- The `team` type of the repository's example model. -/
def teamType : TypeDefinition where
  name := strLit "team"
  relations :=
    [ (strLit "member", dir ["user"])
    , (strLit "admin", .union [dir ["user"], cu "member"])
    , (strLit "parent_organization", dir ["organization"])
    , (strLit "can_view_team", canViewTeamExpr)
    , (strLit "can_manage_team",
        .union [cu "admin", ttu "parent_organization" "admin"]) ]

/-- The `game` type of the repository's example model. -/
def gameType : TypeDefinition where
  name := strLit "game"
  relations :=
    [ (strLit "owner", dir ["user", "organization"])
    , (strLit "developer", dir ["user", "team"])
    , (strLit "qa_tester", dir ["user", "team"])
    , (strLit "belongs_to_organization", dir ["organization"])
    , (strLit "can_view",
        .union [cu "developer", cu "qa_tester",
                ttu "belongs_to_organization" "member"])
    , (strLit "can_edit",
        .union [cu "developer", ttu "belongs_to_organization" "admin"])
    , (strLit "can_publish",
        .union [cu "owner", ttu "belongs_to_organization" "admin"]) ]

/-- The `asset` type of the repository's example model. -/
def assetType : TypeDefinition where
  name := strLit "asset"
  relations :=
    [ (strLit "owner", dir ["user", "team"])
    , (strLit "parent_game", dir ["game"])
    , (strLit "contributor", dir ["user"])
    , (strLit "can_view",
        .union [cu "owner", cu "contributor", ttu "parent_game" "can_view"])
    , (strLit "can_edit",
        .union [cu "owner", cu "contributor", ttu "parent_game" "can_edit"]) ]

/-- The `project` type of the repository's example model. -/
def projectType : TypeDefinition where
  name := strLit "project"
  relations :=
    [ (strLit "owner", dir ["user", "team"])
    , (strLit "parent_game", dir ["game"])
    , (strLit "developer", dir ["user", "team"])
    , (strLit "can_view",
        .union [cu "owner", cu "developer", ttu "parent_game" "can_view"])
    , (strLit "can_edit",
        .union [cu "owner", cu "developer", ttu "parent_game" "can_edit"]) ]

/-- The repository's example authorization model (schema 1.1). -/
def exampleModel : AuthorizationModel where
  id := strLit "example-model"
  schemaVersion := strLit "1.1"
  typeDefinitions :=
    [ { name := strLit "user", relations := [] }
    , organizationType, teamType, gameType, assetType, projectType ]

/-! ## Synthesized metadata (spec §4.4, §4.6)

Modelled from the spec: the symbol table / metadata block built by the
missing `type-generator.ts` — `objectTypes`, `relationsByObject` and the
four per-type `relationCategories` buckets of the emitted
`FGAModelMetadata` object. -/

/-- Association-list lookup over `Str` keys. -/
def lookupStr {α : Type} (k : Str) : List (Str × α) → Option α
  | [] => none
  | (k', v) :: rest => if k' = k then some v else lookupStr k rest

/-- The metadata's `objectTypes` list: type names in model order. -/
def objectTypes (m : AuthorizationModel) : List Str :=
  m.typeDefinitions.map (·.name)

/-- The metadata's `relationsByObject` map: each type's relation names in
model order. -/
def relationsByObject (m : AuthorizationModel) : List (Str × List Str) :=
  m.typeDefinitions.map (fun td => (td.name, td.relations.map (·.1)))

/-- A type's relation-name set as recorded in the metadata block
(empty for an unknown type). -/
def metadataRelations (m : AuthorizationModel) (ty : Str) : List Str :=
  (lookupStr ty (relationsByObject m)).getD []

/-- The relation names of one classification bucket of a type's
`relationCategories` entry: the relations whose expression classifies
as `c`, in model order. -/
def categoryBucket (c : RelationClassification) (td : TypeDefinition) :
    List Str :=
  (td.relations.filter (fun p => classifyRelation p.2 = c)).map (·.1)

/-! ## Generated helper functions (spec §4.5)

Modelled from the spec: the four pure helpers the missing
`type-generator.ts` emits into the generated module. -/

/-- Result of the generated `formatFGAObjectId` helper: the canonical
`"<type>:<id>"` string, or `EmptyIdentifierError` for an empty id. -/
inductive FormatResult where
  | emptyIdentifierError
  | ok (s : Str)
deriving DecidableEq, Repr

/-- Modelled from the spec: the generated `format` helper (spec §4.5) —
`"<type>:<id>"`, requiring only that the id be non-empty. -/
def formatFGAObjectId (ty id : Str) : FormatResult :=
  if id = [] then .emptyIdentifierError else .ok (ty ++ ':' :: id)

/-- Split a string at its first colon: `some (before, after)` when a
colon occurs, `none` otherwise. -/
def splitFirstColon : Str → Option (Str × Str)
  | [] => none
  | c :: rest =>
    if c = ':' then some ([], rest)
    else
      match splitFirstColon rest with
      | some (t, i) => some (c :: t, i)
      | none => none

/-- Modelled from the spec: the generated `parse` helper (spec §4.5) —
splits on the first colon and returns the (type, id) pair when the
prefix is a known object type and the remainder is non-empty; `none`
(the explicit "no match" result) otherwise. -/
def parseFGAObjectId (types : List Str) (s : Str) : Option (Str × Str) :=
  match splitFirstColon s with
  | some (t, i) => if t ∈ types ∧ i ≠ [] then some (t, i) else none
  | none => none

/-- Modelled from the spec: the generated `validate` helper
(`isValidRelationForObjectType`, spec §4.5) — membership of the relation
name in the type's relation set from the metadata block. -/
def isValidRelationForObjectType (m : AuthorizationModel) (ty rel : Str) :
    Bool :=
  match lookupStr ty (relationsByObject m) with
  | some rels => decide (rel ∈ rels)
  | none => false

/-- The typed failure of the generated `build` helper, naming the
invalid (type, relation) pair. -/
structure UnknownRelationError where
  objectType : Str
  relation : Str
deriving DecidableEq, Repr

/-- A tuple-key value of the generated module: object reference of shape
`"<type>:<id>"`, relation, subject reference, optional condition. -/
structure FGATupleKey where
  object : Str
  relation : Str
  user : Str
  condition : Option Str
deriving DecidableEq, Repr

/-- Modelled from the spec: the generated `build` helper
(`createTupleKey`, spec §4.5) — validates the relation name against the
object type's known relation set, then constructs the tuple key. -/
def createTupleKey (m : AuthorizationModel) (ty id rel user : Str)
    (cond : Option Str) : Except UnknownRelationError FGATupleKey :=
  if isValidRelationForObjectType m ty rel then
    .ok { object := ty ++ ':' :: id, relation := rel, user := user,
          condition := cond }
  else
    .error { objectType := ty, relation := rel }

/-! ## Emitter (spec §4.6)

Modelled from the spec: the emitter of the missing `type-generator.ts`,
which serializes the symbol table into one ordered text document —
object-type constants, per-type relation constant groups, the tuple-key
union, the four helpers, then the metadata block whose final
`generatedAt` field is the only timestamp-dependent text. -/

/-- Join a list of strings with a separator. -/
def joinSep (sep : Str) : List Str → Str
  | [] => []
  | [s] => s
  | s :: rest => s ++ sep ++ joinSep sep rest

/-- One emitted relation-constant group: the type name with its relation
names in model order. -/
def renderRelationGroup (td : TypeDefinition) : Str :=
  td.name ++ strLit ": " ++
    joinSep (strLit ", ") (td.relations.map (·.1)) ++ strLit "\n"

/-- One emitted `relationCategories` entry: the four buckets of a type,
in the fixed direct/computed/inherited/indirect order. -/
def renderCategories (td : TypeDefinition) : Str :=
  td.name ++ strLit ": direct=[" ++
    joinSep (strLit ", ") (categoryBucket .direct td) ++
    strLit "] computed=[" ++
    joinSep (strLit ", ") (categoryBucket .computed td) ++
    strLit "] inherited=[" ++
    joinSep (strLit ", ") (categoryBucket .inherited td) ++
    strLit "] indirect=[" ++
    joinSep (strLit ", ") (categoryBucket .indirect td) ++ strLit "]\n"

/-- The emitted document up to (and excluding) the `generatedAt` field:
object-type constants, relation groups, tuple-key union members,
helper section, and the timestamp-independent metadata fields. -/
def emitBody (m : AuthorizationModel) : Str :=
  strLit "// object types\n" ++
    joinSep (strLit ", ") (objectTypes m) ++ strLit "\n" ++
  strLit "// relation groups\n" ++
    (m.typeDefinitions.map renderRelationGroup).flatten ++
  strLit "// tuple-key union\n" ++
    joinSep (strLit " | ") (objectTypes m) ++ strLit "\n" ++
  strLit "// helpers: format parse build validate\n" ++
  strLit "// metadata\n" ++
  strLit "modelId: " ++ m.id ++ strLit "\n" ++
  strLit "schemaVersion: " ++ m.schemaVersion ++ strLit "\n" ++
  strLit "relationCategories:\n" ++
    (m.typeDefinitions.map renderCategories).flatten

/-- The `generatedAt` metadata field for a given timestamp string. -/
def generatedAtField (ts : Str) : Str :=
  strLit "generatedAt: " ++ ts ++ strLit "\n"

/-- The emitted text after the `generatedAt` field (the close of the
metadata block). -/
def emitTail : Str := strLit "// end metadata\n"

/-- Modelled from the spec: the full pipeline output
(`TypeGenerator.generateTypes`) as a pure function of the model and the
run's timestamp, the timestamp feeding only the `generatedAt` field at
the end of the metadata block. -/
def generateTypesText (m : AuthorizationModel) (ts : Str) : Str :=
  emitBody m ++ generatedAtField ts ++ emitTail

/-! ## CLI configuration loading (`src/index.ts`)

Embedded from the source: `parseCliArgs` (identical in both `index.ts`
variants) and the environment-aware `loadConfig` /
`loadConfigFromEnv` of the CLI entry module.  File reads, console
output, model fetching and output writing are modelled as an explicit
effect trace; `process.exit(n)` as an `exited n` outcome. -/

/-- Result of `parseCliArgs`: the `help` flag and the optional config
path (`none` models JavaScript `undefined`). -/
structure CliArgs where
  help : Bool := false
  config : Option String := none
deriving DecidableEq, Repr

/-- The loop of `parseCliArgs`: `--help`/`-h` set `help`; `--config`/`-c`
store the *next* argument as `config` (JavaScript `args[i + 1]`, which is
`undefined` when the flag is last) and skip it; every other argument is
skipped. -/
def parseCliArgsLoop : CliArgs → List String → CliArgs
  | r, [] => r
  | r, a :: rest =>
    if a = "--help" ∨ a = "-h" then
      parseCliArgsLoop { r with help := true } rest
    else if a = "--config" ∨ a = "-c" then
      match rest with
      | [] => { r with config := none }
      | v :: rest' => parseCliArgsLoop { r with config := some v } rest'
    else
      parseCliArgsLoop r rest

/-- `parseCliArgs` of `src/index.ts`, starting from the empty result. -/
def parseCliArgs (args : List String) : CliArgs :=
  parseCliArgsLoop {} args

/-- Does processing the argument list end on an unconsumed `--config`/
`-c`, so that an appended argument would be consumed as its value?
Mirrors the skip structure of `parseCliArgsLoop`. -/
def consumesNext : List String → Bool
  | [] => false
  | [a] => decide (a = "--config" ∨ a = "-c")
  | a :: b :: rest =>
    if a = "--config" ∨ a = "-c" then consumesNext rest
    else consumesNext (b :: rest)

/-- The partially-resolved configuration: each `GeneratorConfig` field as
an optional value (`none` models an absent key / unset variable). -/
structure PartialConfig where
  storeId : Option String := none
  apiUrl : Option String := none
  authorizationModelId : Option String := none
  outputPath : Option String := none
  outputFileName : Option String := none
  apiToken : Option String := none
deriving DecidableEq, Repr

/-- The fully-resolved `GeneratorConfig` returned by `loadConfig`. -/
structure GeneratorConfig where
  storeId : String
  apiUrl : String
  authorizationModelId : Option String
  outputPath : String
  outputFileName : String
  apiToken : Option String
deriving DecidableEq, Repr

/-- The `FGA_*` environment variables visible to `loadConfigFromEnv`
(`none` = unset). -/
structure Env where
  fgaStoreId : Option String := none
  fgaApiUrl : Option String := none
  fgaModelId : Option String := none
  fgaOutputPath : Option String := none
  fgaOutputFile : Option String := none
  fgaApiToken : Option String := none
deriving DecidableEq, Repr

/-- JavaScript truthiness of an optional string: `undefined` and the
empty string are falsy. -/
def truthy (o : Option String) : Bool :=
  o.getD "" ≠ ""

/-- `loadConfigFromEnv` of `src/index.ts`: copies each `FGA_*` variable
into the partial config when it is set and truthy. -/
def loadConfigFromEnv (env : Env) : PartialConfig where
  storeId := if truthy env.fgaStoreId then env.fgaStoreId else none
  apiUrl := if truthy env.fgaApiUrl then env.fgaApiUrl else none
  authorizationModelId := if truthy env.fgaModelId then env.fgaModelId else none
  outputPath := if truthy env.fgaOutputPath then env.fgaOutputPath else none
  outputFileName := if truthy env.fgaOutputFile then env.fgaOutputFile else none
  apiToken := if truthy env.fgaApiToken then env.fgaApiToken else none

/-- The JavaScript spread `{ ...base, ...file }`: a key present in the
file config overrides the base (environment) value. -/
def mergeConfig (base file : PartialConfig) : PartialConfig where
  storeId := file.storeId <|> base.storeId
  apiUrl := file.apiUrl <|> base.apiUrl
  authorizationModelId := file.authorizationModelId <|> base.authorizationModelId
  outputPath := file.outputPath <|> base.outputPath
  outputFileName := file.outputFileName <|> base.outputFileName
  apiToken := file.apiToken <|> base.apiToken

/-- `config.field || default` of the source: the default applies to a
missing *or falsy* value. -/
def orDefault (o : Option String) (d : String) : String :=
  if truthy o then o.getD "" else d

/-- The observable effects of a CLI run. -/
inductive Effect where
  | printHelp
  | readConfigFile (path : String)
  | printDiagnostic
  | fetchModel
  | writeOutput (dir file : String) (content : Str)
deriving DecidableEq, Repr

/-- How `loadConfig` returns: `process.exit(code)`, or the resolved
configuration. -/
inductive LoadResult where
  | exited (code : Nat)
  | ok (cfg : GeneratorConfig)
deriving DecidableEq, Repr

/-- How a full CLI run ends: an explicit `process.exit`, or normal
completion. -/
inductive Outcome where
  | exited (code : Nat)
  | completed
deriving DecidableEq, Repr

/-- The default config file name of `loadConfig`. -/
def defaultConfigPath : String := "openfga-types.config.json"

/-- The validation tail of `loadConfig`: reject a falsy `storeId` or
`apiUrl` with a diagnostic and exit 1, otherwise apply the defaults for
the optional fields and return the resolved configuration. -/
def finishConfig (effs : List Effect) (cfg : PartialConfig) :
    List Effect × LoadResult :=
  if !truthy cfg.storeId then (effs ++ [.printDiagnostic], .exited 1)
  else if !truthy cfg.apiUrl then (effs ++ [.printDiagnostic], .exited 1)
  else
    (effs, .ok
      { storeId := cfg.storeId.getD ""
        apiUrl := cfg.apiUrl.getD ""
        authorizationModelId := cfg.authorizationModelId
        outputPath := orDefault cfg.outputPath "./generated"
        outputFileName := orDefault cfg.outputFileName "fga-types.ts"
        apiToken := cfg.apiToken })

/-- `loadConfig` of `src/index.ts`: help short-circuits with exit 0;
otherwise the env config is the base, the config file (when readable)
is merged over it, and a missing file falls back to the environment only
when both required values are truthy there; finally `storeId` and
`apiUrl` are validated.  `readFile` abstracts
`fs.readFile` + `JSON.parse` (`none` = unreadable or invalid). -/
def loadConfigRun (args : List String) (env : Env)
    (readFile : String → Option PartialConfig) :
    List Effect × LoadResult :=
  let cli := parseCliArgs args
  if cli.help then ([.printHelp], .exited 0)
  else
    let configPath := cli.config.getD defaultConfigPath
    let envCfg := loadConfigFromEnv env
    match readFile configPath with
    | some fileCfg =>
        finishConfig [.readConfigFile configPath] (mergeConfig envCfg fileCfg)
    | none =>
        if truthy envCfg.storeId && truthy envCfg.apiUrl then
          finishConfig [.readConfigFile configPath] envCfg
        else
          ([.readConfigFile configPath, .printDiagnostic], .exited 1)

/-- A full CLI run (`generateTypes` of `src/index.ts`): load the config,
then fetch the model (`fetchResult` abstracts the network) and write the
generated text; any fetch failure prints a diagnostic and exits 1. -/
def runCli (args : List String) (env : Env)
    (readFile : String → Option PartialConfig)
    (fetchResult : Option AuthorizationModel) (ts : Str) :
    List Effect × Outcome :=
  match loadConfigRun args env readFile with
  | (effs, .exited c) => (effs, .exited c)
  | (effs, .ok cfg) =>
    match fetchResult with
    | none => (effs ++ [.fetchModel, .printDiagnostic], .exited 1)
    | some m =>
        (effs ++ [.fetchModel,
          .writeOutput cfg.outputPath cfg.outputFileName
            (generateTypesText m ts)], .completed)

/-- The configuration as resolved from the two sources before
validation: the config file (when readable at the CLI-selected path)
merged over the environment, or the environment alone. -/
def resolvedConfig (args : List String) (env : Env)
    (readFile : String → Option PartialConfig) : PartialConfig :=
  match readFile ((parseCliArgs args).config.getD defaultConfigPath) with
  | some f => mergeConfig (loadConfigFromEnv env) f
  | none => loadConfigFromEnv env

/-- An environment with no `FGA_*` variable set. -/
def emptyEnv : Env := {}

/-- An environment providing both required values. -/
def envBoth : Env :=
  { fgaStoreId := some "store-1", fgaApiUrl := some "http://localhost:8080" }

/-- A filesystem on which every config-file read fails. -/
def noFile : String → Option PartialConfig := fun _ => none

/-! # Theorems -/

/-! ## Helper lemmas -/

/-- `splitFirstColon` finds the separating colon after a colon-free
prefix. -/
theorem splitFirstColon_append (t i : Str) (h : ':' ∉ t) :
    splitFirstColon (t ++ ':' :: i) = some (t, i) := by
  induction t with
  | nil => simp [splitFirstColon]
  | cons c cs ih =>
    have hc : ¬ c = ':' := fun e => h (e ▸ List.mem_cons_self c cs)
    have hcs : ':' ∉ cs := fun m => h (List.mem_cons_of_mem c m)
    simp [splitFirstColon, hc, ih hcs]

/-- Soundness of `splitFirstColon`: a successful split reassembles to
the input, and the prefix is colon-free. -/
theorem splitFirstColon_sound :
    ∀ (s t i : Str), splitFirstColon s = some (t, i) →
      s = t ++ ':' :: i ∧ ':' ∉ t := by
  intro s
  induction s with
  | nil => intro t i h; simp [splitFirstColon] at h
  | cons c cs ih =>
    intro t i h
    by_cases hc : c = ':'
    · simp [splitFirstColon, hc] at h
      obtain ⟨rfl, rfl⟩ := h
      simp [hc]
    · simp only [splitFirstColon, if_neg hc] at h
      cases hsplit : splitFirstColon cs with
      | none => rw [hsplit] at h; simp at h
      | some p =>
        obtain ⟨t', i'⟩ := p
        rw [hsplit] at h
        simp at h
        obtain ⟨rfl, rfl⟩ := h
        obtain ⟨hs, hnot⟩ := ih t' i' hsplit
        constructor
        · simp [hs]
        · intro hm
          rcases List.mem_cons.mp hm with h1 | h2
          · exact hc h1.symm
          · exact hnot h2

/-- The generated `validate` helper agrees with membership in the
metadata's per-type relation set. -/
theorem isValid_iff_mem (m : AuthorizationModel) (ty rel : Str) :
    isValidRelationForObjectType m ty rel = true ↔
      rel ∈ metadataRelations m ty := by
  unfold isValidRelationForObjectType metadataRelations
  cases h : lookupStr ty (relationsByObject m) with
  | none => simp
  | some rels => simp

/-- The four classification filters of a list concatenate to a
permutation of the list: the classifier is total, so each element lands
in exactly one filter. -/
theorem filter_classes_perm {α : Type} (f : α → RelationClassification) :
    ∀ l : List α,
      (l.filter (fun x => f x = .direct) ++
       l.filter (fun x => f x = .computed) ++
       l.filter (fun x => f x = .inherited) ++
       l.filter (fun x => f x = .indirect)).Perm l := by
  intro l
  induction l with
  | nil => simp
  | cons x l ih =>
    cases hx : f x with
    | direct =>
      simp [List.filter_cons, hx]
      simpa using ih
    | computed =>
      simp [List.filter_cons, hx]
      refine List.Perm.trans ?_ (ih.cons x)
      simp only [List.append_assoc, List.cons_append]
      exact List.perm_middle
    | inherited =>
      simp [List.filter_cons, hx]
      refine List.Perm.trans ?_ (ih.cons x)
      simp only [List.append_assoc, List.cons_append]
      refine List.Perm.trans (List.Perm.append_left _ List.perm_middle) ?_
      exact List.perm_middle
    | indirect =>
      simp [List.filter_cons, hx]
      refine List.Perm.trans ?_ (ih.cons x)
      simp only [List.append_assoc, List.cons_append]
      refine List.Perm.trans
        (List.Perm.append_left _ (List.Perm.append_left _ List.perm_middle)) ?_
      refine List.Perm.trans (List.Perm.append_left _ List.perm_middle) ?_
      exact List.perm_middle

/-! ## Claim theorems -/

/-- C1: any relation whose `RelationExpression` tree contains at least
one `TupleToUserset` node anywhere classifies as `inherited`, whatever
other node kinds the tree combines it with. -/
theorem c1_inherited_dominates (e : RelationExpression)
    (h : containsTupleToUserset e = true) :
    classifyRelation e = .inherited := by
  simp [classifyRelation, h]

/-- C1 witness: the relation `can_view_team: member or admin or member
from parent_organization` contains a `TupleToUserset` node and
classifies as `inherited`. -/
theorem c1_witness :
    containsTupleToUserset canViewTeamExpr = true ∧
    classifyRelation canViewTeamExpr = .inherited :=
  ⟨by decide, c1_inherited_dominates canViewTeamExpr (by decide)⟩

/-- C2: for every object type known to the generated module (object-type
names are colon-free in any well-formed model) and every non-empty id,
the generated `parse` helper inverts the generated `format` helper:
`parse (format ty id) = some (ty, id)`. -/
theorem c2_parse_format_roundtrip (types : List Str) (t i : Str)
    (ht : t ∈ types) (hcolon : ':' ∉ t) (hi : i ≠ []) :
    formatFGAObjectId t i = .ok (t ++ ':' :: i) ∧
    parseFGAObjectId types (t ++ ':' :: i) = some (t, i) := by
  refine ⟨by simp [formatFGAObjectId, hi], ?_⟩
  simp [parseFGAObjectId, splitFirstColon_append t i hcolon, ht, hi]

/-- C2 witness: round-trip of `("organization", "42")` over the
repository's example model. -/
theorem c2_witness :
    formatFGAObjectId (strLit "organization") (strLit "42") =
      .ok (strLit "organization" ++ ':' :: strLit "42") ∧
    parseFGAObjectId (objectTypes exampleModel)
        (strLit "organization" ++ ':' :: strLit "42") =
      some (strLit "organization", strLit "42") :=
  c2_parse_format_roundtrip (objectTypes exampleModel)
    (strLit "organization") (strLit "42") (by decide) (by decide) (by decide)

/-- C3: the classifier is total — every relation expression receives
exactly one of the four classifications — and, for every type
definition, the four `relationCategories` buckets of the emitted
metadata are a permutation of the type's relation-name list (no overlap,
no omission, multiplicities preserved). -/
theorem c3_classification_partition :
    (∀ e : RelationExpression, ∃! c : RelationClassification,
      classifyRelation e = c) ∧
    ∀ td : TypeDefinition,
      (categoryBucket .direct td ++ categoryBucket .computed td ++
       categoryBucket .inherited td ++ categoryBucket .indirect td).Perm
        (td.relations.map Prod.fst) := by
  constructor
  · exact fun e => ⟨classifyRelation e, rfl, fun c hc => hc.symm⟩
  · intro td
    have h := filter_classes_perm (fun p => classifyRelation p.2) td.relations
    simpa [categoryBucket, List.map_append] using h.map Prod.fst

/-- C4: the emitted text is a pure function of the model and the
timestamp, and the timestamp feeds only the `generatedAt` metadata
field — two runs over the same model agree on the (timestamp-independent)
prefix and suffix around that field. -/
theorem c4_deterministic_modulo_timestamp (m : AuthorizationModel) :
    ∃ pre post : Str, ∀ ts : Str,
      generateTypesText m ts = pre ++ generatedAtField ts ++ post :=
  ⟨emitBody m, emitTail, fun _ => rfl⟩

/-- C5: the generated `validate` helper returns `true` exactly when the
relation name appears in that object type's relation set as recorded in
the emitted metadata block. -/
theorem c5_validate_iff_metadata (m : AuthorizationModel) (ty rel : Str) :
    isValidRelationForObjectType m ty rel = true ↔
      rel ∈ metadataRelations m ty :=
  isValid_iff_mem m ty rel

/-- C6: the generated `build` helper fails with `UnknownRelationError`
naming the (type, relation) pair exactly when the relation is not in the
object type's known relation set, and otherwise succeeds with a
tuple key whose object field is `"<type>:<id>"`. -/
theorem c6_build_spec (m : AuthorizationModel) (ty id rel user : Str)
    (cond : Option Str) :
    (rel ∉ metadataRelations m ty →
      createTupleKey m ty id rel user cond =
        .error { objectType := ty, relation := rel }) ∧
    (rel ∈ metadataRelations m ty →
      createTupleKey m ty id rel user cond =
        .ok { object := ty ++ ':' :: id, relation := rel, user := user,
              condition := cond }) := by
  constructor
  · intro h
    have hv : isValidRelationForObjectType m ty rel = false := by
      cases hb : isValidRelationForObjectType m ty rel with
      | false => rfl
      | true => exact absurd ((isValid_iff_mem m ty rel).mp hb) h
    simp [createTupleKey, hv]
  · intro h
    have hv : isValidRelationForObjectType m ty rel = true :=
      (isValid_iff_mem m ty rel).mpr h
    simp [createTupleKey, hv]

/-- C6 witness: on the repository's example model,
`build("organization", "1", "invalid_relation", "user:alice")` fails with
`UnknownRelationError` for `(organization, invalid_relation)`, and
`build("organization", "1", "owner", "user:alice")` succeeds with object
field `"organization:1"`. -/
theorem c6_witness :
    createTupleKey exampleModel (strLit "organization") (strLit "1")
        (strLit "invalid_relation") (strLit "user:alice") none =
      .error { objectType := strLit "organization",
               relation := strLit "invalid_relation" } ∧
    createTupleKey exampleModel (strLit "organization") (strLit "1")
        (strLit "owner") (strLit "user:alice") none =
      .ok { object := strLit "organization" ++ ':' :: strLit "1",
            relation := strLit "owner", user := strLit "user:alice",
            condition := none } :=
  ⟨(c6_build_spec exampleModel (strLit "organization") (strLit "1")
      (strLit "invalid_relation") (strLit "user:alice") none).1 (by decide),
   (c6_build_spec exampleModel (strLit "organization") (strLit "1")
      (strLit "owner") (strLit "user:alice") none).2 (by decide)⟩

/-- C7: over any known-type list whose names are colon-free, the
generated `parse` helper returns `some (t, i)` exactly for the inputs
`"<t>:<i>"` with `t` a known object type and `i` non-empty, and returns
the explicit no-match result `none` on every other input — it is a total
function into `Option`, so it never raises. -/
theorem c7_parse_no_match (types : List Str)
    (htypes : ∀ t ∈ types, ':' ∉ t) (s : Str) :
    (∀ t i : Str, parseFGAObjectId types s = some (t, i) ↔
      (t ∈ types ∧ i ≠ [] ∧ s = t ++ ':' :: i)) ∧
    ((¬ ∃ t i : Str, t ∈ types ∧ i ≠ [] ∧ s = t ++ ':' :: i) →
      parseFGAObjectId types s = none) := by
  constructor
  · intro t i
    constructor
    · intro h
      unfold parseFGAObjectId at h
      cases hsplit : splitFirstColon s with
      | none => simp [hsplit] at h
      | some p =>
        obtain ⟨t', i'⟩ := p
        simp only [hsplit] at h
        by_cases hcond : t' ∈ types ∧ i' ≠ []
        · rw [if_pos hcond] at h
          obtain ⟨rfl, rfl⟩ : t' = t ∧ i' = i := by simpa using h
          obtain ⟨hs, _⟩ := splitFirstColon_sound s t' i' hsplit
          exact ⟨hcond.1, hcond.2, hs⟩
        · rw [if_neg hcond] at h
          simp at h
    · rintro ⟨ht, hi, rfl⟩
      have : splitFirstColon (t ++ ':' :: i) = some (t, i) :=
        splitFirstColon_append t i (htypes t ht)
      simp [parseFGAObjectId, this, ht, hi]
  · intro hno
    cases hp : parseFGAObjectId types s with
    | none => rfl
    | some p =>
      obtain ⟨t, i⟩ := p
      unfold parseFGAObjectId at hp
      cases hsplit : splitFirstColon s with
      | none => simp [hsplit] at hp
      | some q =>
        obtain ⟨t', i'⟩ := q
        simp only [hsplit] at hp
        by_cases hcond : t' ∈ types ∧ i' ≠ []
        · obtain ⟨hs, _⟩ := splitFirstColon_sound s t' i' hsplit
          exact absurd ⟨t', i', hcond.1, hcond.2, hs⟩ hno
        · rw [if_neg hcond] at hp
          simp at hp

/-- C7 witness: over the example model's types,
`parse "organization:42"` matches and `parse "bogus"` is the explicit
no-match result. -/
theorem c7_witness :
    parseFGAObjectId (objectTypes exampleModel) (strLit "organization:42") =
      some (strLit "organization", strLit "42") ∧
    parseFGAObjectId (objectTypes exampleModel) (strLit "bogus") = none := by
  constructor
  · exact ((c7_parse_no_match (objectTypes exampleModel) (by decide)
      (strLit "organization:42")).1 (strLit "organization")
        (strLit "42")).mpr ⟨by decide, by decide, by decide⟩
  · refine (c7_parse_no_match (objectTypes exampleModel) (by decide)
      (strLit "bogus")).2 ?_
    rintro ⟨t, i, ht, hi, hs⟩
    have hcolon : ':' ∈ strLit "bogus" := by
      rw [hs]; exact List.mem_append_right t (List.mem_cons_self ':' i)
    exact absurd hcolon (by decide)

/-- A final `--config`/`-c` reached in flag position (the preceding
arguments do not end awaiting a config value) leaves the parsed config
value `undefined`. -/
theorem parseLoop_trailing_config_aux (c : String)
    (hc : c = "--config" ∨ c = "-c") :
    ∀ (n : Nat) (pre : List String), pre.length ≤ n →
      ∀ r : CliArgs, consumesNext pre = false →
        (parseCliArgsLoop r (pre ++ [c])).config = none := by
  have hch : ¬ (c = "--help" ∨ c = "-h") := by
    rcases hc with rfl | rfl <;> simp
  intro n
  induction n with
  | zero =>
    intro pre hlen r _
    have hnil : pre = [] := List.eq_nil_of_length_eq_zero (Nat.le_zero.mp hlen)
    subst hnil
    simp [parseCliArgsLoop, hch, hc]
  | succ n ih =>
    intro pre hlen r hcons
    match pre with
    | [] => simp [parseCliArgsLoop, hch, hc]
    | [a] =>
      have ha : ¬ (a = "--config" ∨ a = "-c") := by
        intro h
        simp [consumesNext, h] at hcons
      by_cases hah : a = "--help" ∨ a = "-h"
      · simp [parseCliArgsLoop, hah, ha, hch, hc]
      · simp [parseCliArgsLoop, hah, ha, hch, hc]
    | a :: b :: rest =>
      by_cases hac : a = "--config" ∨ a = "-c"
      · have hcons' : consumesNext rest = false := by
          simpa [consumesNext, hac] using hcons
        have hah : ¬ (a = "--help" ∨ a = "-h") := by
          rcases hac with rfl | rfl <;> simp
        have hstep : parseCliArgsLoop r ((a :: b :: rest) ++ [c]) =
            parseCliArgsLoop { r with config := some b } (rest ++ [c]) := by
          simp [parseCliArgsLoop, hah, hac]
        rw [hstep]
        exact ih rest (by simp at hlen; omega) _ hcons'
      · have hcons' : consumesNext (b :: rest) = false := by
          simpa [consumesNext, hac] using hcons
        have hlen' : (b :: rest).length ≤ n := by
          simp at hlen ⊢; omega
        by_cases hah : a = "--help" ∨ a = "-h"
        · have hstep : parseCliArgsLoop r ((a :: b :: rest) ++ [c]) =
              parseCliArgsLoop { r with help := true } ((b :: rest) ++ [c]) := by
            simp [parseCliArgsLoop, hah, hac]
          rw [hstep]
          exact ih (b :: rest) hlen' _ hcons'
        · have hstep : parseCliArgsLoop r ((a :: b :: rest) ++ [c]) =
              parseCliArgsLoop r ((b :: rest) ++ [c]) := by
            simp [parseCliArgsLoop, hah, hac]
          rw [hstep]
          exact ih (b :: rest) hlen' r hcons'

/-- finishConfig succeeds when both required values are truthy. -/
theorem finishConfig_ok (effs : List Effect) (cfg : PartialConfig)
    (h1 : truthy cfg.storeId = true) (h2 : truthy cfg.apiUrl = true) :
    finishConfig effs cfg = (effs, .ok
      { storeId := cfg.storeId.getD "", apiUrl := cfg.apiUrl.getD "",
        authorizationModelId := cfg.authorizationModelId,
        outputPath := orDefault cfg.outputPath "./generated",
        outputFileName := orDefault cfg.outputFileName "fga-types.ts",
        apiToken := cfg.apiToken }) := by
  simp [finishConfig, h1, h2]

/-- finishConfig prints a diagnostic and exits 1 when a required value
is falsy. -/
theorem finishConfig_fail (effs : List Effect) (cfg : PartialConfig)
    (h : truthy cfg.storeId = false ∨ truthy cfg.apiUrl = false) :
    ∃ e, finishConfig effs cfg = (e, .exited 1) ∧
      Effect.printDiagnostic ∈ e := by
  rcases h with h | h
  · exact ⟨effs ++ [Effect.printDiagnostic],
      by simp [finishConfig, h], by simp⟩
  · cases h1 : truthy cfg.storeId
    · exact ⟨effs ++ [Effect.printDiagnostic],
        by simp [finishConfig, h1], by simp⟩
    · exact ⟨effs ++ [Effect.printDiagnostic],
        by simp [finishConfig, h1, h], by simp⟩

/-- C8: with `--help` absent, `loadConfig` resolves `storeId` and
`apiUrl` from the config file or the environment with the file taking
precedence (a key present in the file overrides the environment value),
succeeds when both resolved values are truthy, and otherwise prints a
diagnostic and exits with the non-zero status 1. -/
theorem c8_required_config (args : List String) (env : Env)
    (readFile : String → Option PartialConfig)
    (hhelp : (parseCliArgs args).help = false) :
    (∀ f v, readFile ((parseCliArgs args).config.getD defaultConfigPath) =
        some f → f.storeId = some v →
        (resolvedConfig args env readFile).storeId = some v) ∧
    (∀ f v, readFile ((parseCliArgs args).config.getD defaultConfigPath) =
        some f → f.apiUrl = some v →
        (resolvedConfig args env readFile).apiUrl = some v) ∧
    (truthy (resolvedConfig args env readFile).storeId = true →
      truthy (resolvedConfig args env readFile).apiUrl = true →
      ∃ effs cfg, loadConfigRun args env readFile = (effs, .ok cfg) ∧
        cfg.storeId = (resolvedConfig args env readFile).storeId.getD "" ∧
        cfg.apiUrl = (resolvedConfig args env readFile).apiUrl.getD "") ∧
    ((truthy (resolvedConfig args env readFile).storeId = false ∨
      truthy (resolvedConfig args env readFile).apiUrl = false) →
      ∃ effs, loadConfigRun args env readFile = (effs, .exited 1) ∧
        Effect.printDiagnostic ∈ effs) := by
  cases hrf : readFile ((parseCliArgs args).config.getD defaultConfigPath) with
  | some f =>
    have hres : resolvedConfig args env readFile =
        mergeConfig (loadConfigFromEnv env) f := by
      simp [resolvedConfig, hrf]
    have hrun : loadConfigRun args env readFile =
        finishConfig [.readConfigFile ((parseCliArgs args).config.getD
          defaultConfigPath)] (mergeConfig (loadConfigFromEnv env) f) := by
      simp [loadConfigRun, hhelp, hrf]
    refine ⟨?_, ?_, ?_, ?_⟩
    · intro g v hg hv
      injection hg with hg
      subst hg
      rw [hres]
      simp [mergeConfig, hv]
    · intro g v hg hv
      injection hg with hg
      subst hg
      rw [hres]
      simp [mergeConfig, hv]
    · intro h1 h2
      rw [hres] at h1 h2
      rw [hrun, finishConfig_ok _ _ h1 h2]
      exact ⟨_, _, rfl, by simp [hres], by simp [hres]⟩
    · intro h
      rw [hres] at h
      obtain ⟨e, he, hmem⟩ := finishConfig_fail
        [.readConfigFile ((parseCliArgs args).config.getD defaultConfigPath)]
        _ h
      exact ⟨e, by rw [hrun, he], hmem⟩
  | none =>
    have hres : resolvedConfig args env readFile = loadConfigFromEnv env := by
      simp [resolvedConfig, hrf]
    refine ⟨?_, ?_, ?_, ?_⟩
    · intro g v hg hv
      exact Option.noConfusion hg
    · intro g v hg hv
      exact Option.noConfusion hg
    · intro h1 h2
      rw [hres] at h1 h2
      have hrun : loadConfigRun args env readFile =
          finishConfig [.readConfigFile ((parseCliArgs args).config.getD
            defaultConfigPath)] (loadConfigFromEnv env) := by
        simp [loadConfigRun, hhelp, hrf, h1, h2]
      rw [hrun, finishConfig_ok _ _ h1 h2]
      exact ⟨_, _, rfl, by simp [hres], by simp [hres]⟩
    · intro h
      rw [hres] at h
      have hand : (truthy (loadConfigFromEnv env).storeId &&
          truthy (loadConfigFromEnv env).apiUrl) = false := by
        rcases h with h | h <;> simp [h]
      have hrun : loadConfigRun args env readFile =
          ([.readConfigFile ((parseCliArgs args).config.getD
              defaultConfigPath), .printDiagnostic], .exited 1) := by
        simp [loadConfigRun, hhelp, hrf, hand]
      exact ⟨_, hrun, by simp⟩

/-- C8 witness: with both environment variables set and no config file
the load succeeds with the environment values; with neither source
providing the required values it prints a diagnostic and exits 1. -/
theorem c8_witness :
    (∃ effs cfg, loadConfigRun [] envBoth noFile = (effs, .ok cfg) ∧
      cfg.storeId = (resolvedConfig [] envBoth noFile).storeId.getD "" ∧
      cfg.apiUrl = (resolvedConfig [] envBoth noFile).apiUrl.getD "") ∧
    ∃ effs, loadConfigRun [] emptyEnv noFile = (effs, .exited 1) ∧
      Effect.printDiagnostic ∈ effs := by
  constructor
  · exact (c8_required_config [] envBoth noFile (by decide)).2.2.1
      (by decide) (by decide)
  · exact (c8_required_config [] emptyEnv noFile (by decide)).2.2.2
      (Or.inl (by decide))

/-- C9 counterexample: with `--help` appearing in the argument list but
in the value position of a preceding `-c`, the CLI does not print usage
and does not exit 0 — `--help` is consumed as the config path, the read
of the file named `--help` fails, and the run exits 1. -/
theorem c9_counterexample :
    "--help" ∈ ["-c", "--help"] ∧
    (runCli ["-c", "--help"] emptyEnv noFile none []).2 = Outcome.exited 1 ∧
    Effect.printHelp ∉ (runCli ["-c", "--help"] emptyEnv noFile none []).1 := by
  refine ⟨by simp, ?_, ?_⟩ <;> decide

/-- C9 (amended): when `--help` or `-h` is reached in flag position —
that is, `parseCliArgs` sets the help flag — the CLI prints the usage
text and exits with status 0, with no config-file read, no model fetch
and no output write in its effect trace. -/
theorem c9_help_exits_zero (args : List String) (env : Env)
    (readFile : String → Option PartialConfig)
    (fetch : Option AuthorizationModel) (ts : Str)
    (h : (parseCliArgs args).help = true) :
    runCli args env readFile fetch ts =
      ([Effect.printHelp], Outcome.exited 0) ∧
    (∀ p, Effect.readConfigFile p ∉ (runCli args env readFile fetch ts).1) ∧
    Effect.fetchModel ∉ (runCli args env readFile fetch ts).1 ∧
    (∀ d f c, Effect.writeOutput d f c ∉
      (runCli args env readFile fetch ts).1) := by
  have hrun : runCli args env readFile fetch ts =
      ([Effect.printHelp], Outcome.exited 0) := by
    simp [runCli, loadConfigRun, h]
  refine ⟨hrun, ?_, ?_, ?_⟩ <;> rw [hrun] <;> simp

/-- C9 witness: `--help` as the sole argument prints usage, exits 0 and
performs no other effect. -/
theorem c9_witness :
    runCli ["--help"] emptyEnv noFile none [] =
      ([Effect.printHelp], Outcome.exited 0) ∧
    (∀ p, Effect.readConfigFile p ∉
      (runCli ["--help"] emptyEnv noFile none []).1) ∧
    Effect.fetchModel ∉ (runCli ["--help"] emptyEnv noFile none []).1 ∧
    (∀ d f c, Effect.writeOutput d f c ∉
      (runCli ["--help"] emptyEnv noFile none []).1) :=
  c9_help_exits_zero ["--help"] emptyEnv noFile none [] (by decide)

/-- C10: every argument in flag position other than `--help`/`-h`/
`--config`/`-c` is skipped with no effect on the parse result, and a
final `--config`/`-c` reached in flag position leaves the parsed config
value `undefined`, so `loadConfig` falls back to the default config file
name `openfga-types.config.json`. -/
theorem c10_unrecognized_and_trailing (x : String) (r : CliArgs)
    (rest : List String) (pre : List String) (c : String)
    (hx1 : ¬ (x = "--help" ∨ x = "-h"))
    (hx2 : ¬ (x = "--config" ∨ x = "-c"))
    (hc : c = "--config" ∨ c = "-c")
    (hpre : consumesNext pre = false) :
    parseCliArgsLoop r (x :: rest) = parseCliArgsLoop r rest ∧
    (parseCliArgs (pre ++ [c])).config = none ∧
    (parseCliArgs (pre ++ [c])).config.getD defaultConfigPath =
      defaultConfigPath := by
  have hskip : parseCliArgsLoop r (x :: rest) = parseCliArgsLoop r rest := by
    cases rest with
    | nil => simp [parseCliArgsLoop, hx1, hx2]
    | cons b rest => simp [parseCliArgsLoop, hx1, hx2]
  have htrail : (parseCliArgs (pre ++ [c])).config = none :=
    parseLoop_trailing_config_aux c hc pre.length pre le_rfl {} hpre
  exact ⟨hskip, htrail, by rw [htrail]; rfl⟩

/-- C10 witness: `--verbose` is skipped in front of `--help`, and a lone
`--config` leaves the config value undefined so the default config file
name is used. -/
theorem c10_witness :
    parseCliArgsLoop {} ["--verbose", "--help"] =
      parseCliArgsLoop {} ["--help"] ∧
    (parseCliArgs ["--config"]).config = none ∧
    (parseCliArgs ["--config"]).config.getD defaultConfigPath =
      defaultConfigPath :=
  c10_unrecognized_and_trailing "--verbose" {} ["--help"] [] "--config"
    (by decide) (by decide) (Or.inl rfl) rfl

end FgaGen
